import Mathlib

/-!
Verification of the marker-delimited patch engine of `installer.py`
(programmer-dvorak-eu). The Python source is embedded shallowly:

* file contents are `List Char`; `readlines` is `splitLines`, `writelines`
  is `joinLines`;
* the `uninstall` line loop (skip-state machine over begin/end marker
  substrings) is `stripBlocks`;
* the `install` symbols step (three appending writes) is `install_symbols`;
* the XML tree of `evdev.xml` is `XNode`; `install`'s ElementTree loop is
  `install_rules`; `uninstall`'s XML loop is `uninstall_rules`.  Python
  exceptions (AttributeError on a missing `variantList`, TypeError from
  `isinstance(elem, ET.Comment)` where `ET.Comment` is a function, not a
  type) are modelled with `PyResult.exn`;
* the orchestration of `install()` / `uninstall()` (backup both files,
  then mutate) is an event trace, `installTrace` / `uninstallTrace`.
-/

/-- Characters of a string literal, the byte content of a text file. -/
def chars (s : String) : List Char := s.toList

/-- The newline character. -/
def nl : Char := '\n'

/-- Marker line opening the appended block in the symbols file
(`BEGIN_COMMENT_SYM` in the source). -/
def BEGIN_COMMENT_SYM : List Char := chars "// DPE-BEGIN"

/-- Marker line closing the appended block in the symbols file
(`END_COMMENT_SYM` in the source). -/
def END_COMMENT_SYM : List Char := chars "// DPE-END"

/-- Whether `tok` occurs at the very front of `s`. -/
def isPref : List Char → List Char → Bool
  | [], _ => true
  | _ :: _, [] => false
  | t :: ts, c :: cs => t == c && isPref ts cs

/-- Python substring containment `tok in s`. -/
def containsTok (tok : List Char) : List Char → Bool
  | [] => isPref tok []
  | c :: cs => isPref tok (c :: cs) || containsTok tok cs

/-- Helper for `splitLines`: `acc` holds the reversed current line. -/
def splitLinesAux : List Char → List Char → List (List Char)
  | [], acc => if acc.isEmpty then [] else [acc.reverse]
  | c :: cs, acc =>
    if c = nl then (c :: acc).reverse :: splitLinesAux cs []
    else splitLinesAux cs (c :: acc)

/-- Python `readlines`: split into lines, each keeping its trailing
newline; a final fragment without a newline is its own line. -/
def splitLines (s : List Char) : List (List Char) := splitLinesAux s []

/-- Python `writelines`: concatenate the lines back. -/
def joinLines (ls : List (List Char)) : List Char := ls.foldr (· ++ ·) []

/-- The `uninstall` symbols loop: drop every line containing a marker
token, and every line between a begin marker and the next end marker.
`skip` is the loop's boolean state. -/
def stripBlocks : Bool → List (List Char) → List (List Char)
  | _, [] => []
  | skip, l :: ls =>
    if containsTok BEGIN_COMMENT_SYM l then stripBlocks true ls
    else if containsTok END_COMMENT_SYM l then stripBlocks false ls
    else if skip then stripBlocks skip ls
    else l :: stripBlocks skip ls

/-- The `install` symbols step: three appending writes,
`"\n" + begin + "\n"`, the layout data, `"\n" + end + "\n"`. -/
def install_symbols (content layout_data : List Char) : List Char :=
  content ++ chars "\n// DPE-BEGIN\n" ++ layout_data ++ chars "\n// DPE-END\n"

/-- The `uninstall` symbols step: `readlines`, the skip loop,
`writelines`. -/
def uninstall_symbols (content : List Char) : List Char :=
  joinLines (stripBlocks false (splitLines content))

/-- An ElementTree node: an element with a tag, optional text and child
nodes, or a comment node. -/
inductive XNode where
  | elem (tag : String) (text : Option String) (children : List XNode)
  | comment (text : String)

/-- Result of a Python code path: a value, or an uncaught exception. -/
inductive PyResult (α : Type) where
  | ok (val : α)
  | exn (msg : String)

/-- Map over the normal result, propagating an exception. -/
def PyResult.map (f : α → β) : PyResult α → PyResult β
  | .ok a => .ok (f a)
  | .exn e => .exn e

/-- ElementTree `parent.find(tag)`: the first child element with the
given tag (comments are never matched), as `(text, children)`. -/
def firstTag (t : String) : List XNode → Option (Option String × List XNode)
  | [] => none
  | .elem t0 tx cs :: rest =>
    if t0 = t then some (tx, cs) else firstTag t rest
  | .comment _ :: rest => firstTag t rest

/-- Replace the first child element with the given tag (the in-place
mutation of the object `find` returned). -/
def replaceFirstTag (t : String) (new : XNode) : List XNode → List XNode
  | [] => []
  | .elem t0 tx cs :: rest =>
    if t0 = t then new :: rest else .elem t0 tx cs :: replaceFirstTag t new rest
  | .comment c :: rest => .comment c :: replaceFirstTag t new rest

/-- ElementTree `layout.find('configItem/name')`: the first `name`
grandchild reached through a `configItem` child, in document order. -/
def findGrand (t1 t2 : String) : List XNode → Option (Option String × List XNode)
  | [] => none
  | .elem t0 _ gcs :: rest =>
    if t0 = t1 then
      match firstTag t2 gcs with
      | some x => some x
      | none => findGrand t1 t2 rest
    else findGrand t1 t2 rest
  | .comment _ :: rest => findGrand t1 t2 rest

/-- The source's loop guard: the node is a `layout` element whose
`configItem/name` text equals `"us"` (nothing else is consulted). -/
def isUsLayout : XNode → Bool
  | .elem "layout" _ cs =>
    match findGrand "configItem" "name" cs with
    | some (some tx, _) => tx = "us"
    | _ => false
  | _ => false

/-- The `variant` element built by `install` (`configItem` with `name`
`dpe` and the description text). -/
def dpeVariant : XNode :=
  .elem "variant" none
    [.elem "configItem" none
      [.elem "name" (some "dpe") [],
       .elem "description" (some "English (Programmer Dvorak Eur. Keys)") []]]

/-- `install`'s mutation of the matched layout: find `variantList` and
insert the begin comment, the variant and the end comment at indices
0, 1, 2 (so the triple is placed before all existing children).  A
missing `variantList` means `find` returned `None` and
`None.insert(...)` raises AttributeError. -/
def modifyLayout : XNode → PyResult XNode
  | .elem t tx cs =>
    match firstTag "variantList" cs with
    | none => .exn "AttributeError"
    | some (vtx, vcs) =>
      .ok (.elem t tx (replaceFirstTag "variantList"
        (.elem "variantList" vtx
          (.comment " DPE-BEGIN " :: dpeVariant :: .comment " DPE-END " :: vcs)) cs))
  | .comment c => .ok (.comment c)

/-- `install`'s `for layout in root.findall('layout')` loop: the first
child passing `isUsLayout` is mutated and the loop breaks; all other
children are left as they are. -/
def installChildren : List XNode → PyResult (List XNode)
  | [] => .ok []
  | n :: rest =>
    if isUsLayout n then (modifyLayout n).map (· :: rest)
    else (installChildren rest).map (n :: ·)

/-- The whole XML step of `install`, on the parsed root element. -/
def install_rules : XNode → PyResult XNode
  | .elem t tx cs => (installChildren cs).map (.elem t tx ·)
  | .comment c => .ok (.comment c)

/-- `uninstall`'s removal loop body for one child list of `variantList`.
The loop's first statement evaluates `isinstance(elem, ET.Comment)`;
`ET.Comment` is a function, not a type, so Python raises TypeError on
the first iteration.  Hence an empty collection removes nothing and a
nonempty one aborts the whole run. -/
def removeStep : List XNode → PyResult (List XNode)
  | [] => .ok []
  | _ :: _ => .exn "TypeError"

/-- `uninstall`'s mutation of the matched layout: `find('variantList')`
(`None` would make `list(None)` raise TypeError), then the removal
loop. -/
def uninstallLayoutStep : XNode → PyResult XNode
  | .elem t tx cs =>
    match firstTag "variantList" cs with
    | none => .exn "TypeError"
    | some (vtx, vcs) =>
      (removeStep vcs).map (fun vcs2 =>
        .elem t tx (replaceFirstTag "variantList" (.elem "variantList" vtx vcs2) cs))
  | .comment c => .ok (.comment c)

/-- `uninstall`'s layout loop, breaking at the first `us` layout. -/
def uninstallChildren : List XNode → PyResult (List XNode)
  | [] => .ok []
  | n :: rest =>
    if isUsLayout n then (uninstallLayoutStep n).map (· :: rest)
    else (uninstallChildren rest).map (n :: ·)

/-- The whole XML step of `uninstall`, on the parsed root element. -/
def uninstall_rules : XNode → PyResult XNode
  | .elem t tx cs => (uninstallChildren cs).map (.elem t tx ·)
  | .comment c => .ok (.comment c)

/-- The two files the orchestrator touches. -/
inductive FileId where
  | symbols
  | rules
deriving DecidableEq

/-- A file content snapshot: raw text for the symbols file, a parsed
tree for the rules file. -/
inductive FContent where
  | text (s : List Char)
  | doc (d : XNode)

/-- An observable filesystem action of a run. -/
inductive Event where
  | backup (f : FileId) (c : FContent)
  | write (f : FileId) (c : FContent)

/-- `backup_file(path)`: if the source exists it is copied (one backup
event, destination returned); otherwise a warning is printed, no backup
is made, `None` is returned and execution continues. -/
def backup_file (c : Option FContent) (f : FileId) : List Event × Option FileId :=
  match c with
  | some x => ([.backup f x], some f)
  | none => ([], none)

/-- The event trace of `install()`: back up both files, append to the
symbols file (created empty if missing), then parse, mutate and rewrite
the rules file — no write happens there if the XML step raises. -/
def installTrace (s? : Option (List Char)) (r : XNode) (L : List Char) : List Event :=
  (backup_file (s?.map .text) .symbols).1 ++
  (backup_file (some (.doc r)) .rules).1 ++
  [.write .symbols (.text (install_symbols (s?.getD []) L))] ++
  (match install_rules r with
   | .ok r2 => [.write .rules (.doc r2)]
   | .exn _ => [])

/-- The event trace of `uninstall()`: back up both files, rewrite the
filtered symbols file (a missing symbols file aborts at the read, after
the rules backup), then the XML step, whose write is skipped if it
raises. -/
def uninstallTrace (s? : Option (List Char)) (r : XNode) : List Event :=
  (backup_file (s?.map .text) .symbols).1 ++
  (backup_file (some (.doc r)) .rules).1 ++
  (match s? with
   | none => []
   | some s =>
     [.write .symbols (.text (uninstall_symbols s))] ++
     (match uninstall_rules r with
      | .ok r2 => [.write .rules (.doc r2)]
      | .exn _ => []))

/-- Initial filesystem view for runs where both files exist. -/
def fs0 (s : List Char) (r : XNode) : FileId → FContent
  | .symbols => .text s
  | .rules => .doc r

/-- Effect of one event on the filesystem view. -/
def stepEv (g : FileId → FContent) : Event → FileId → FContent
  | .write f c => fun f' => if f' = f then c else g f'
  | .backup _ _ => g

/-- Replay a trace over a filesystem view. -/
def runEv (g : FileId → FContent) (t : List Event) : FileId → FContent :=
  t.foldl stepEv g

/-- Whether an event is a backup of file `f`. -/
def isBackupOf (f : FileId) : Event → Bool
  | .backup f0 _ => f0 = f
  | .write _ _ => false

/-- Backup-before-mutate over a trace: every write to a file is
preceded by exactly one backup of that file, holding exactly the
content the file has at the moment of the write. -/
def backupOk (g : FileId → FContent) (t : List Event) : Prop :=
  ∀ (i : Nat) (f : FileId) (c : FContent),
    t[i]? = some (.write f c) →
    (t.take i).filter (isBackupOf f) = [.backup f (runEv g (t.take i) f)]

/-- Whether a character list ends with a newline. -/
def endsNl : List Char → Bool
  | [] => false
  | [c] => c == nl
  | _ :: c :: rest => endsNl (c :: rest)

theorem endsNl_snoc (x : List Char) (c : Char) : endsNl (x ++ [c]) = (c == nl) := by
  induction x with
  | nil => rfl
  | cons a y ih =>
    cases y with
    | nil => rfl
    | cons b z => simpa [endsNl] using ih

theorem splitAux_nil (acc : List Char) :
    splitLinesAux [] acc = if acc.isEmpty then [] else [acc.reverse] := rfl

theorem splitAux_cons (c : Char) (cs acc : List Char) :
    splitLinesAux (c :: cs) acc =
      if c = nl then (c :: acc).reverse :: splitLinesAux cs []
      else splitLinesAux cs (c :: acc) := rfl

theorem splitAux_append (b : List Char) :
    ∀ (a acc : List Char), endsNl a = true →
      splitLinesAux (a ++ b) acc = splitLinesAux a acc ++ splitLinesAux b [] := by
  intro a
  induction a with
  | nil => intro acc h; simp [endsNl] at h
  | cons c a' ih =>
    intro acc h
    cases a' with
    | nil =>
      have hc : c = nl := by simpa [endsNl] using h
      subst hc
      show splitLinesAux (nl :: b) acc =
        splitLinesAux (nl :: []) acc ++ splitLinesAux b []
      rw [splitAux_cons nl b acc, if_pos rfl, splitAux_cons nl [] acc, if_pos rfl]
      simp [splitAux_nil]
    | cons d a'' =>
      have h' : endsNl (d :: a'') = true := by simpa [endsNl] using h
      by_cases hc : c = nl
      · subst hc
        show splitLinesAux (nl :: (d :: a'' ++ b)) acc =
          splitLinesAux (nl :: d :: a'') acc ++ splitLinesAux b []
        rw [splitAux_cons nl (d :: a'' ++ b) acc, if_pos rfl,
          splitAux_cons nl (d :: a'') acc, if_pos rfl, ih [] h']
        simp
      · show splitLinesAux (c :: (d :: a'' ++ b)) acc =
          splitLinesAux (c :: d :: a'') acc ++ splitLinesAux b []
        rw [splitAux_cons c (d :: a'' ++ b) acc, if_neg hc,
          splitAux_cons c (d :: a'') acc, if_neg hc, ih (c :: acc) h']

theorem splitLines_append (a b : List Char) (h : a = [] ∨ endsNl a = true) :
    splitLines (a ++ b) = splitLines a ++ splitLines b := by
  rcases h with h | h
  · subst h; rfl
  · exact splitAux_append b a [] h

theorem splitAux_single : ∀ (m acc : List Char), nl ∉ m →
    splitLinesAux (m ++ [nl]) acc = [acc.reverse ++ (m ++ [nl])] := by
  intro m
  induction m with
  | nil => intro acc _; simp [splitLinesAux]
  | cons c m' ih =>
    intro acc h
    have hc : c ≠ nl := fun hh => h (hh ▸ List.mem_cons_self c m')
    simpa [splitLinesAux, hc] using ih (c :: acc) (fun hm => h (List.mem_cons_of_mem _ hm))

theorem splitLines_single (m : List Char) (h : nl ∉ m) :
    splitLines (m ++ [nl]) = [m ++ [nl]] := by
  simpa using splitAux_single m [] h

theorem join_splitAux : ∀ (s acc : List Char),
    joinLines (splitLinesAux s acc) = acc.reverse ++ s := by
  intro s
  induction s with
  | nil =>
    intro acc
    by_cases h : acc.isEmpty
    · have hacc : acc = [] := by simpa [List.isEmpty_iff] using h
      subst hacc; simp [splitLinesAux, joinLines]
    · simp [splitLinesAux, h, joinLines]
  | cons c s' ih =>
    intro acc
    by_cases hc : c = nl
    · subst hc
      simpa [splitLinesAux, joinLines] using ih []
    · simpa [splitLinesAux, hc] using ih (c :: acc)

theorem join_split (s : List Char) : joinLines (splitLines s) = s := by
  simpa using join_splitAux s []

theorem isPref_append (tok : List Char) (b : List Char) :
    ∀ s, isPref tok s = true → isPref tok (s ++ b) = true := by
  induction tok with
  | nil => intro s _; rfl
  | cons t ts ih =>
    intro s h
    cases s with
    | nil => simp [isPref] at h
    | cons c cs =>
      simp [isPref] at h ⊢
      exact ⟨h.1, ih cs h.2⟩

theorem containsTok_append_left (tok : List Char) (b : List Char) :
    ∀ a, containsTok tok a = true → containsTok tok (a ++ b) = true := by
  intro a
  induction a with
  | nil =>
    intro h
    cases tok with
    | nil => cases b <;> simp [containsTok, isPref]
    | cons t ts => simp [containsTok, isPref] at h
  | cons c a' ih =>
    intro h
    simp [containsTok] at h ⊢
    rcases h with h | h
    · exact Or.inl (isPref_append _ b (c :: a') (by simpa [isPref] using h))
    · exact Or.inr (ih h)

theorem containsTok_append_right (tok a b : List Char)
    (h : containsTok tok b = true) : containsTok tok (a ++ b) = true := by
  induction a with
  | nil => simpa using h
  | cons c a' ih =>
    simp [containsTok]
    exact Or.inr ih

theorem containsTok_of_mem (tok l : List Char) (ls : List (List Char))
    (hm : l ∈ ls) (h : containsTok tok l = true) :
    containsTok tok (joinLines ls) = true := by
  induction ls with
  | nil => cases hm
  | cons x xs ih =>
    rcases List.mem_cons.mp hm with rfl | hm'
    · exact containsTok_append_left tok (joinLines xs) l h
    · exact containsTok_append_right tok x (joinLines xs) (ih hm')

theorem line_free (tok s l : List Char) (h : containsTok tok s = false)
    (hm : l ∈ splitLines s) : containsTok tok l = false := by
  by_contra hh
  rw [Bool.not_eq_false] at hh
  have h2 := containsTok_of_mem tok l (splitLines s) hm hh
  rw [join_split] at h2
  simp [h] at h2

theorem isPref_snoc : ∀ (tok y : List Char) (x : Char), x ∉ tok →
    isPref tok (y ++ [x]) = true → isPref tok y = true := by
  intro tok
  induction tok with
  | nil => intro y x _ _; rfl
  | cons t ts ih =>
    intro y x hx h
    cases y with
    | nil =>
      simp [isPref] at h
      exact absurd (by rw [h.1]; exact List.mem_cons_self x ts) hx
    | cons c y' =>
      simp [isPref] at h ⊢
      exact ⟨h.1, ih y' x (fun hm => hx (List.mem_cons_of_mem _ hm)) h.2⟩

theorem containsTok_snoc : ∀ (X tok : List Char) (x : Char), x ∉ tok →
    containsTok tok (X ++ [x]) = true → containsTok tok X = true := by
  intro X
  induction X with
  | nil =>
    intro tok x hx h
    cases tok with
    | nil => rfl
    | cons t ts =>
      simp [containsTok, isPref] at h
      exact absurd (by rw [h.1]; exact List.mem_cons_self x ts) hx
  | cons c X' ih =>
    intro tok x hx h
    simp [containsTok] at h ⊢
    rcases h with h | h
    · exact Or.inl (isPref_snoc tok (c :: X') x hx (by simpa [isPref] using h))
    · exact Or.inr (ih tok x hx h)

theorem containsTok_snoc_free (X tok : List Char) (x : Char) (hx : x ∉ tok)
    (h : containsTok tok X = false) : containsTok tok (X ++ [x]) = false := by
  by_contra hh
  rw [Bool.not_eq_false] at hh
  have h2 := containsTok_snoc X tok x hx hh
  simp [h] at h2

theorem stripBlocks_free (rest : List (List Char)) :
    ∀ ls : List (List Char),
    (∀ l ∈ ls, containsTok BEGIN_COMMENT_SYM l = false ∧
      containsTok END_COMMENT_SYM l = false) →
    stripBlocks false (ls ++ rest) = ls ++ stripBlocks false rest := by
  intro ls
  induction ls with
  | nil => intro _; rfl
  | cons l ls' ih =>
    intro h
    have hl := h l (List.mem_cons_self l ls')
    simp [stripBlocks, hl.1, hl.2]
    exact ih (fun m hm => h m (List.mem_cons_of_mem _ hm))

theorem stripBlocks_skip (rest : List (List Char)) :
    ∀ ls : List (List Char),
    (∀ l ∈ ls, containsTok END_COMMENT_SYM l = false) →
    stripBlocks true (ls ++ rest) = stripBlocks true rest := by
  intro ls
  induction ls with
  | nil => intro _; rfl
  | cons l ls' ih =>
    intro h
    have hl := h l (List.mem_cons_self l ls')
    have ih' := ih (fun m hm => h m (List.mem_cons_of_mem _ hm))
    by_cases hb : containsTok BEGIN_COMMENT_SYM l = true
    · simpa [stripBlocks, hb] using ih'
    · rw [Bool.not_eq_true] at hb
      simpa [stripBlocks, hb, hl] using ih'

theorem stripBlocks_no_marker :
    ∀ (ls : List (List Char)) (skip : Bool) (l : List Char),
    l ∈ stripBlocks skip ls →
    containsTok BEGIN_COMMENT_SYM l = false ∧
      containsTok END_COMMENT_SYM l = false := by
  intro ls
  induction ls with
  | nil => intro skip l hm; simp [stripBlocks] at hm
  | cons x ls' ih =>
    intro skip l hm
    by_cases hb : containsTok BEGIN_COMMENT_SYM x = true
    · exact ih true l (by simpa [stripBlocks, hb] using hm)
    · rw [Bool.not_eq_true] at hb
      by_cases he : containsTok END_COMMENT_SYM x = true
      · exact ih false l (by simpa [stripBlocks, hb, he] using hm)
      · rw [Bool.not_eq_true] at he
        cases skip with
        | true => exact ih true l (by simpa [stripBlocks, hb, he] using hm)
        | false =>
          rcases List.mem_cons.mp (by simpa [stripBlocks, hb, he] using hm)
            with rfl | hm'
          · exact ⟨hb, he⟩
          · exact ih false l hm'

theorem stripBlocks_cons (skip : Bool) (l : List Char) (ls : List (List Char)) :
    stripBlocks skip (l :: ls) =
      if containsTok BEGIN_COMMENT_SYM l then stripBlocks true ls
      else if containsTok END_COMMENT_SYM l then stripBlocks false ls
      else if skip then stripBlocks skip ls
      else l :: stripBlocks skip ls := rfl

theorem nl_not_in_begin : nl ∉ BEGIN_COMMENT_SYM := by decide

theorem nl_not_in_end : nl ∉ END_COMMENT_SYM := by decide

theorem beginLine_has_begin :
    containsTok BEGIN_COMMENT_SYM (BEGIN_COMMENT_SYM ++ [nl]) = true := by decide

theorem endLine_no_begin :
    containsTok BEGIN_COMMENT_SYM (END_COMMENT_SYM ++ [nl]) = false := by decide

theorem endLine_has_end :
    containsTok END_COMMENT_SYM (END_COMMENT_SYM ++ [nl]) = true := by decide

theorem install_symbols_regroup (C P : List Char) :
    install_symbols C P =
      (C ++ [nl]) ++
        ((BEGIN_COMMENT_SYM ++ [nl]) ++ ((P ++ [nl]) ++ (END_COMMENT_SYM ++ [nl]))) := by
  have h1 : chars "\n// DPE-BEGIN\n" = [nl] ++ (BEGIN_COMMENT_SYM ++ [nl]) := by decide
  have h2 : chars "\n// DPE-END\n" = [nl] ++ (END_COMMENT_SYM ++ [nl]) := by decide
  simp [install_symbols, h1, h2]

/-- C1 (amended): for any content and payload free of both marker tokens,
reverting the applied symbols file yields the original content plus one
extra trailing newline — the blank separator line the apply step wrote
before the begin marker survives the revert — and not the original
content byte-for-byte. -/
theorem c1_text_roundtrip_appends_newline (C P : List Char)
    (hCB : containsTok BEGIN_COMMENT_SYM C = false)
    (hCE : containsTok END_COMMENT_SYM C = false)
    (hPB : containsTok BEGIN_COMMENT_SYM P = false)
    (hPE : containsTok END_COMMENT_SYM P = false) :
    uninstall_symbols (install_symbols C P) = C ++ [nl] := by
  have hC' : ∀ l ∈ splitLines (C ++ [nl]),
      containsTok BEGIN_COMMENT_SYM l = false ∧
        containsTok END_COMMENT_SYM l = false := by
    intro l hl
    exact ⟨line_free _ _ _ (containsTok_snoc_free C _ nl nl_not_in_begin hCB) hl,
      line_free _ _ _ (containsTok_snoc_free C _ nl nl_not_in_end hCE) hl⟩
  have hP' : ∀ l ∈ splitLines (P ++ [nl]),
      containsTok END_COMMENT_SYM l = false := by
    intro l hl
    exact line_free _ _ _ (containsTok_snoc_free P _ nl nl_not_in_end hPE) hl
  rw [uninstall_symbols, install_symbols_regroup C P]
  rw [splitLines_append (C ++ [nl]) _ (Or.inr (by simp [endsNl_snoc]))]
  rw [splitLines_append (BEGIN_COMMENT_SYM ++ [nl]) _ (Or.inr (by simp [endsNl_snoc]))]
  rw [splitLines_append (P ++ [nl]) _ (Or.inr (by simp [endsNl_snoc]))]
  rw [splitLines_single BEGIN_COMMENT_SYM nl_not_in_begin,
    splitLines_single END_COMMENT_SYM nl_not_in_end]
  rw [show splitLines (C ++ [nl]) ++
      ([BEGIN_COMMENT_SYM ++ [nl]] ++ (splitLines (P ++ [nl]) ++ [END_COMMENT_SYM ++ [nl]])) =
      splitLines (C ++ [nl]) ++
      ((BEGIN_COMMENT_SYM ++ [nl]) :: (splitLines (P ++ [nl]) ++ [END_COMMENT_SYM ++ [nl]]))
    from rfl]
  rw [stripBlocks_free _ (splitLines (C ++ [nl])) hC']
  rw [stripBlocks_cons, if_pos beginLine_has_begin]
  rw [stripBlocks_skip [END_COMMENT_SYM ++ [nl]] (splitLines (P ++ [nl])) hP']
  rw [stripBlocks_cons, if_neg (by simp [endLine_no_begin]), if_pos endLine_has_end]
  simp [stripBlocks, join_split]

/-- C1 as stated is false on the code: the concrete marker-free content
`"keycodes xyz\n"` and marker-free payload round-trip to
`"keycodes xyz\n\n"`, which differs from the original. -/
theorem c1_counterexample :
    containsTok BEGIN_COMMENT_SYM (chars "keycodes xyz\n") = false ∧
    containsTok END_COMMENT_SYM (chars "keycodes xyz\n") = false ∧
    containsTok BEGIN_COMMENT_SYM (chars "xkb_symbols dpe data") = false ∧
    containsTok END_COMMENT_SYM (chars "xkb_symbols dpe data") = false ∧
    uninstall_symbols (install_symbols (chars "keycodes xyz\n")
      (chars "xkb_symbols dpe data")) ≠ chars "keycodes xyz\n" := by decide

/-- Witness for C1 (amended) at the spec's end-to-end scenario content. -/
theorem c1_witness :
    containsTok BEGIN_COMMENT_SYM (chars "keycodes xyz\n") = false ∧
    uninstall_symbols (install_symbols (chars "keycodes xyz\n")
      (chars "xkb_symbols dpe data")) = chars "keycodes xyz\n" ++ [nl] :=
  ⟨by decide, c1_text_roundtrip_appends_newline _ _
    (by decide) (by decide) (by decide) (by decide)⟩

theorem stripBlocks_free_all (ls : List (List Char))
    (h : ∀ l ∈ ls, containsTok BEGIN_COMMENT_SYM l = false ∧
      containsTok END_COMMENT_SYM l = false) :
    stripBlocks false ls = ls := by
  have h2 := stripBlocks_free [] ls h
  simpa [stripBlocks] using h2

theorem stripBlocks_skip_all (ls : List (List Char))
    (h : ∀ l ∈ ls, containsTok END_COMMENT_SYM l = false) :
    stripBlocks true ls = [] := by
  have h2 := stripBlocks_skip [] ls h
  simpa [stripBlocks] using h2

theorem joinLines_append (xs ys : List (List Char)) :
    joinLines (xs ++ ys) = joinLines xs ++ joinLines ys := by
  induction xs with
  | nil => rfl
  | cons x xs ih =>
    show x ++ joinLines (xs ++ ys) = (x ++ joinLines xs) ++ joinLines ys
    rw [ih, List.append_assoc]

/-- C2 (amended): neither apply path checks whether the patch is already
applied; a second apply on the symbols content appends the entire
delimited block a second time, so the content is changed rather than
left unchanged, and no AlreadyApplied outcome exists. -/
theorem c2_second_apply_reappends (s L : List Char) :
    install_symbols (install_symbols s L) L =
      install_symbols s L ++ chars "\n// DPE-BEGIN\n" ++ L ++
        chars "\n// DPE-END\n" ∧
    install_symbols (install_symbols s L) L ≠ install_symbols s L := by
  constructor
  · rfl
  · intro h
    have hl := congrArg List.length h
    have e1 : (chars "\n// DPE-BEGIN\n").length = 14 := by decide
    have e2 : (chars "\n// DPE-END\n").length = 12 := by decide
    simp [install_symbols, List.length_append, e1, e2] at hl

/-- C2 is false as stated: on a content where the begin marker is
already present (the result of a first apply), a second apply does not
fail and does not leave the content unchanged — it re-inserts the
block. -/
theorem c2_counterexample :
    containsTok BEGIN_COMMENT_SYM
      (install_symbols (chars "keycodes xyz\n") (chars "xkb_symbols dpe data")) =
      true ∧
    install_symbols
        (install_symbols (chars "keycodes xyz\n") (chars "xkb_symbols dpe data"))
        (chars "xkb_symbols dpe data") ≠
      install_symbols (chars "keycodes xyz\n") (chars "xkb_symbols dpe data") := by
  decide

/-- C7 (amended): when the begin marker is absent the text revert does
not fail — no NotApplied error path exists; if no end-marker line is
present either, the content is written back byte-identical (a silent
no-op). -/
theorem c7_revert_noop_when_unapplied (s : List Char)
    (hB : containsTok BEGIN_COMMENT_SYM s = false)
    (hE : containsTok END_COMMENT_SYM s = false) :
    uninstall_symbols s = s := by
  have h' : ∀ l ∈ splitLines s, containsTok BEGIN_COMMENT_SYM l = false ∧
      containsTok END_COMMENT_SYM l = false :=
    fun l hl => ⟨line_free _ _ _ hB hl, line_free _ _ _ hE hl⟩
  rw [uninstall_symbols, stripBlocks_free_all _ h', join_split]

/-- C7 is false as stated: on marker-free content the text revert
returns the content unchanged instead of failing. -/
theorem c7_counterexample :
    containsTok BEGIN_COMMENT_SYM (chars "keycodes xyz\n") = false ∧
    uninstall_symbols (chars "keycodes xyz\n") = chars "keycodes xyz\n" := by
  decide

/-- Witness for C7 (amended) at a concrete marker-free content. -/
theorem c7_witness :
    containsTok BEGIN_COMMENT_SYM (chars "abc\ndef\n") = false ∧
    containsTok END_COMMENT_SYM (chars "abc\ndef\n") = false ∧
    uninstall_symbols (chars "abc\ndef\n") = chars "abc\ndef\n" :=
  ⟨by decide, by decide,
    c7_revert_noop_when_unapplied _ (by decide) (by decide)⟩

/-- C3 (amended): a begin marker with no following end marker raises no
CorruptBlock error. The text revert silently removes every line from
the marker line through end of file and rewrites the file; the XML
revert removes no siblings, because its loop raises TypeError on the
first child of a nonempty variant collection (`isinstance` is called
with the `ET.Comment` function as second argument) and so aborts before
removing anything. -/
theorem c3_corrupt_block_behavior :
    (∀ A M : List Char,
      containsTok BEGIN_COMMENT_SYM A = false →
      containsTok END_COMMENT_SYM A = false →
      (A = [] ∨ endsNl A = true) →
      containsTok END_COMMENT_SYM M = false →
      uninstall_symbols (A ++ ((BEGIN_COMMENT_SYM ++ [nl]) ++ M)) = A) ∧
    (∀ vcs : List XNode, vcs ≠ [] → removeStep vcs = .exn "TypeError") := by
  constructor
  · intro A M hAB hAE hAnl hM
    have hA' : ∀ l ∈ splitLines A, containsTok BEGIN_COMMENT_SYM l = false ∧
        containsTok END_COMMENT_SYM l = false :=
      fun l hl => ⟨line_free _ _ _ hAB hl, line_free _ _ _ hAE hl⟩
    have hM' : ∀ l ∈ splitLines M, containsTok END_COMMENT_SYM l = false :=
      fun l hl => line_free _ _ _ hM hl
    rw [uninstall_symbols]
    rw [splitLines_append A _ hAnl]
    rw [splitLines_append (BEGIN_COMMENT_SYM ++ [nl]) M
      (Or.inr (by simp [endsNl_snoc]))]
    rw [splitLines_single BEGIN_COMMENT_SYM nl_not_in_begin]
    rw [show splitLines A ++ ([BEGIN_COMMENT_SYM ++ [nl]] ++ splitLines M) =
      splitLines A ++ ((BEGIN_COMMENT_SYM ++ [nl]) :: splitLines M) from rfl]
    rw [stripBlocks_free _ (splitLines A) hA']
    rw [stripBlocks_cons, if_pos beginLine_has_begin]
    rw [stripBlocks_skip_all _ hM']
    simp [join_split]
  · intro vcs h
    cases vcs with
    | nil => exact absurd rfl h
    | cons x xs => rfl

/-- C3 is false as stated: a concrete file with a begin marker and no
end marker is modified by the revert (the tail is removed) and no error
is raised. -/
theorem c3_counterexample :
    containsTok BEGIN_COMMENT_SYM (chars "a\n// DPE-BEGIN\nb\n") = true ∧
    containsTok END_COMMENT_SYM (chars "a\n// DPE-BEGIN\nb\n") = false ∧
    uninstall_symbols (chars "a\n// DPE-BEGIN\nb\n") = chars "a\n" ∧
    uninstall_symbols (chars "a\n// DPE-BEGIN\nb\n") ≠
      chars "a\n// DPE-BEGIN\nb\n" := by decide

/-- Witness for C3 (amended) at concrete inputs. -/
theorem c3_witness :
    uninstall_symbols (chars "x\n" ++ ((BEGIN_COMMENT_SYM ++ [nl]) ++ chars "tail\n")) =
      chars "x\n" ∧
    removeStep [dpeVariant] = .exn "TypeError" :=
  ⟨c3_corrupt_block_behavior.1 (chars "x\n") (chars "tail\n")
      (by decide) (by decide) (Or.inr (by decide)) (by decide),
    c3_corrupt_block_behavior.2 [dpeVariant] (by simp)⟩

theorem stripBlocks_two_pairs
    (LA LB LC LM1 LM2 : List (List Char)) (bl1 bl2 el1 el2 : List Char)
    (hA : ∀ l ∈ LA, containsTok BEGIN_COMMENT_SYM l = false ∧
      containsTok END_COMMENT_SYM l = false)
    (hB : ∀ l ∈ LB, containsTok BEGIN_COMMENT_SYM l = false ∧
      containsTok END_COMMENT_SYM l = false)
    (hC : ∀ l ∈ LC, containsTok BEGIN_COMMENT_SYM l = false ∧
      containsTok END_COMMENT_SYM l = false)
    (hM1 : ∀ l ∈ LM1, containsTok END_COMMENT_SYM l = false)
    (hM2 : ∀ l ∈ LM2, containsTok END_COMMENT_SYM l = false)
    (hb1 : containsTok BEGIN_COMMENT_SYM bl1 = true)
    (hb2 : containsTok BEGIN_COMMENT_SYM bl2 = true)
    (he1B : containsTok BEGIN_COMMENT_SYM el1 = false)
    (he1E : containsTok END_COMMENT_SYM el1 = true)
    (he2B : containsTok BEGIN_COMMENT_SYM el2 = false)
    (he2E : containsTok END_COMMENT_SYM el2 = true) :
    stripBlocks false
      (LA ++ bl1 :: (LM1 ++ el1 :: (LB ++ bl2 :: (LM2 ++ el2 :: LC)))) =
      LA ++ (LB ++ LC) := by
  rw [stripBlocks_free _ LA hA]
  rw [stripBlocks_cons, if_pos hb1]
  rw [stripBlocks_skip _ LM1 hM1]
  rw [stripBlocks_cons, if_neg (by simp [he1B]), if_pos he1E]
  rw [stripBlocks_free _ LB hB]
  rw [stripBlocks_cons, if_pos hb2]
  rw [stripBlocks_skip _ LM2 hM2]
  rw [stripBlocks_cons, if_neg (by simp [he2B]), if_pos he2E]
  rw [stripBlocks_free_all LC hC]

/-- C10: the revert loop removes the span of every begin/end marker pair
(two disjoint pairs shown here, with arbitrary surrounding content), not
only the first; and marker recognition is by substring containment
anywhere in a line — a line with leading text before the marker token
(`w`/`v` below) is still treated as a marker line and removed.  The
second conjunct states the substring rule in full generality: no line
surviving the loop contains either marker token anywhere in it. -/
theorem c10_multi_pair_and_substring_removal :
    (∀ A B C M1 M2 w1 w2 v1 v2 : List Char,
      containsTok BEGIN_COMMENT_SYM A = false →
      containsTok END_COMMENT_SYM A = false →
      (A = [] ∨ endsNl A = true) →
      containsTok BEGIN_COMMENT_SYM B = false →
      containsTok END_COMMENT_SYM B = false →
      (B = [] ∨ endsNl B = true) →
      containsTok BEGIN_COMMENT_SYM C = false →
      containsTok END_COMMENT_SYM C = false →
      containsTok END_COMMENT_SYM M1 = false →
      (M1 = [] ∨ endsNl M1 = true) →
      containsTok END_COMMENT_SYM M2 = false →
      (M2 = [] ∨ endsNl M2 = true) →
      nl ∉ w1 → nl ∉ w2 → nl ∉ v1 → nl ∉ v2 →
      containsTok BEGIN_COMMENT_SYM (v1 ++ (END_COMMENT_SYM ++ [nl])) = false →
      containsTok BEGIN_COMMENT_SYM (v2 ++ (END_COMMENT_SYM ++ [nl])) = false →
      uninstall_symbols
        (A ++ ((w1 ++ (BEGIN_COMMENT_SYM ++ [nl])) ++
          (M1 ++ ((v1 ++ (END_COMMENT_SYM ++ [nl])) ++
            (B ++ ((w2 ++ (BEGIN_COMMENT_SYM ++ [nl])) ++
              (M2 ++ ((v2 ++ (END_COMMENT_SYM ++ [nl])) ++ C)))))))) =
        A ++ (B ++ C)) ∧
    (∀ (skip : Bool) (ls : List (List Char)) (l : List Char),
      l ∈ stripBlocks skip ls →
      containsTok BEGIN_COMMENT_SYM l = false ∧
        containsTok END_COMMENT_SYM l = false) := by
  constructor
  · intro A B C M1 M2 w1 w2 v1 v2 hAB hAE hAnl hBB hBE hBnl hCB hCE
      hM1 hM1nl hM2 hM2nl hw1 hw2 hv1 hv2 hv1B hv2B
    have hA' : ∀ l ∈ splitLines A, containsTok BEGIN_COMMENT_SYM l = false ∧
        containsTok END_COMMENT_SYM l = false :=
      fun l hl => ⟨line_free _ _ _ hAB hl, line_free _ _ _ hAE hl⟩
    have hB' : ∀ l ∈ splitLines B, containsTok BEGIN_COMMENT_SYM l = false ∧
        containsTok END_COMMENT_SYM l = false :=
      fun l hl => ⟨line_free _ _ _ hBB hl, line_free _ _ _ hBE hl⟩
    have hC' : ∀ l ∈ splitLines C, containsTok BEGIN_COMMENT_SYM l = false ∧
        containsTok END_COMMENT_SYM l = false :=
      fun l hl => ⟨line_free _ _ _ hCB hl, line_free _ _ _ hCE hl⟩
    have hM1' : ∀ l ∈ splitLines M1, containsTok END_COMMENT_SYM l = false :=
      fun l hl => line_free _ _ _ hM1 hl
    have hM2' : ∀ l ∈ splitLines M2, containsTok END_COMMENT_SYM l = false :=
      fun l hl => line_free _ _ _ hM2 hl
    have hnlw1 : nl ∉ w1 ++ BEGIN_COMMENT_SYM := by
      intro h
      rcases List.mem_append.mp h with h | h
      · exact hw1 h
      · exact nl_not_in_begin h
    have hnlw2 : nl ∉ w2 ++ BEGIN_COMMENT_SYM := by
      intro h
      rcases List.mem_append.mp h with h | h
      · exact hw2 h
      · exact nl_not_in_begin h
    have hnlv1 : nl ∉ v1 ++ END_COMMENT_SYM := by
      intro h
      rcases List.mem_append.mp h with h | h
      · exact hv1 h
      · exact nl_not_in_end h
    have hnlv2 : nl ∉ v2 ++ END_COMMENT_SYM := by
      intro h
      rcases List.mem_append.mp h with h | h
      · exact hv2 h
      · exact nl_not_in_end h
    have hbl1s : splitLines (w1 ++ (BEGIN_COMMENT_SYM ++ [nl])) =
        [w1 ++ (BEGIN_COMMENT_SYM ++ [nl])] := by
      simpa [List.append_assoc] using
        splitLines_single (w1 ++ BEGIN_COMMENT_SYM) hnlw1
    have hbl2s : splitLines (w2 ++ (BEGIN_COMMENT_SYM ++ [nl])) =
        [w2 ++ (BEGIN_COMMENT_SYM ++ [nl])] := by
      simpa [List.append_assoc] using
        splitLines_single (w2 ++ BEGIN_COMMENT_SYM) hnlw2
    have hel1s : splitLines (v1 ++ (END_COMMENT_SYM ++ [nl])) =
        [v1 ++ (END_COMMENT_SYM ++ [nl])] := by
      simpa [List.append_assoc] using
        splitLines_single (v1 ++ END_COMMENT_SYM) hnlv1
    have hel2s : splitLines (v2 ++ (END_COMMENT_SYM ++ [nl])) =
        [v2 ++ (END_COMMENT_SYM ++ [nl])] := by
      simpa [List.append_assoc] using
        splitLines_single (v2 ++ END_COMMENT_SYM) hnlv2
    have hbl1nl : endsNl (w1 ++ (BEGIN_COMMENT_SYM ++ [nl])) = true := by
      simpa [List.append_assoc] using endsNl_snoc (w1 ++ BEGIN_COMMENT_SYM) nl
    have hbl2nl : endsNl (w2 ++ (BEGIN_COMMENT_SYM ++ [nl])) = true := by
      simpa [List.append_assoc] using endsNl_snoc (w2 ++ BEGIN_COMMENT_SYM) nl
    have hel1nl : endsNl (v1 ++ (END_COMMENT_SYM ++ [nl])) = true := by
      simpa [List.append_assoc] using endsNl_snoc (v1 ++ END_COMMENT_SYM) nl
    have hel2nl : endsNl (v2 ++ (END_COMMENT_SYM ++ [nl])) = true := by
      simpa [List.append_assoc] using endsNl_snoc (v2 ++ END_COMMENT_SYM) nl
    have hb1 : containsTok BEGIN_COMMENT_SYM
        (w1 ++ (BEGIN_COMMENT_SYM ++ [nl])) = true :=
      containsTok_append_right _ w1 _ beginLine_has_begin
    have hb2 : containsTok BEGIN_COMMENT_SYM
        (w2 ++ (BEGIN_COMMENT_SYM ++ [nl])) = true :=
      containsTok_append_right _ w2 _ beginLine_has_begin
    have he1E : containsTok END_COMMENT_SYM
        (v1 ++ (END_COMMENT_SYM ++ [nl])) = true :=
      containsTok_append_right _ v1 _ endLine_has_end
    have he2E : containsTok END_COMMENT_SYM
        (v2 ++ (END_COMMENT_SYM ++ [nl])) = true :=
      containsTok_append_right _ v2 _ endLine_has_end
    rw [uninstall_symbols]
    rw [splitLines_append A _ hAnl,
      splitLines_append (w1 ++ (BEGIN_COMMENT_SYM ++ [nl])) _ (Or.inr hbl1nl),
      splitLines_append M1 _ hM1nl,
      splitLines_append (v1 ++ (END_COMMENT_SYM ++ [nl])) _ (Or.inr hel1nl),
      splitLines_append B _ hBnl,
      splitLines_append (w2 ++ (BEGIN_COMMENT_SYM ++ [nl])) _ (Or.inr hbl2nl),
      splitLines_append M2 _ hM2nl,
      splitLines_append (v2 ++ (END_COMMENT_SYM ++ [nl])) _ (Or.inr hel2nl),
      hbl1s, hel1s, hbl2s, hel2s]
    simp only [List.singleton_append]
    rw [stripBlocks_two_pairs (splitLines A) (splitLines B) (splitLines C)
      (splitLines M1) (splitLines M2) _ _ _ _ hA' hB' hC' hM1' hM2'
      hb1 hb2 hv1B he1E hv2B he2E]
    rw [joinLines_append, joinLines_append, join_split, join_split, join_split]
  · intro skip ls l hm
    exact stripBlocks_no_marker ls skip l hm

/-- Witness for C10 at a concrete two-pair content with leading text on
the second pair's marker lines, and a concrete surviving line. -/
theorem c10_witness :
    uninstall_symbols
      (chars "head\n" ++ ((chars "" ++ (BEGIN_COMMENT_SYM ++ [nl])) ++
        (chars "p1\n" ++ ((chars "" ++ (END_COMMENT_SYM ++ [nl])) ++
          (chars "mid\n" ++ ((chars "xx " ++ (BEGIN_COMMENT_SYM ++ [nl])) ++
            (chars "p2\n" ++ ((chars "yy " ++ (END_COMMENT_SYM ++ [nl])) ++
              chars "tail")))))))) =
      chars "head\n" ++ (chars "mid\n" ++ chars "tail") ∧
    containsTok BEGIN_COMMENT_SYM (chars "za\n") = false ∧
      containsTok END_COMMENT_SYM (chars "za\n") = false :=
  ⟨c10_multi_pair_and_substring_removal.1 (chars "head\n") (chars "mid\n")
      (chars "tail") (chars "p1\n") (chars "p2\n") (chars "") (chars "xx ")
      (chars "") (chars "yy ")
      (by decide) (by decide) (by decide) (by decide) (by decide) (by decide)
      (by decide) (by decide) (by decide) (by decide) (by decide) (by decide)
      (by decide) (by decide) (by decide) (by decide) (by decide) (by decide),
    c10_multi_pair_and_substring_removal.2 false [chars "za\n"] (chars "za\n")
      (by decide)⟩

/-- C6 (amended): the mutation target is the first child that is a
`layout` element whose `configItem/name` text equals `"us"`; the
`shortDescription` is never consulted (`isUsLayout` reads only the
name), so a layout with name `"us"` and any other shortDescription is
selected.  Children before the target are kept because they fail the
name test alone, and children after it are untouched (the loop breaks). -/
theorem c6_target_selected_by_name_only (pre post : List XNode) (n : XNode)
    (hpre : ∀ m ∈ pre, isUsLayout m = false) (hn : isUsLayout n = true) :
    installChildren (pre ++ n :: post) =
      (modifyLayout n).map (fun n2 => pre ++ n2 :: post) := by
  induction pre with
  | nil =>
    simp [installChildren, hn]
  | cons m pre' ih =>
    have hm := hpre m (List.mem_cons_self m pre')
    have ih' := ih (fun x hx => hpre x (List.mem_cons_of_mem _ hx))
    cases hmod : modifyLayout n with
    | ok a =>
      have ih2 : installChildren (pre' ++ n :: post) = .ok (pre' ++ a :: post) := by
        rw [ih', hmod]; rfl
      simp [installChildren, hm, ih2, PyResult.map]
    | exn e =>
      have ih2 : installChildren (pre' ++ n :: post) = .exn e := by
        rw [ih', hmod]; rfl
      simp [installChildren, hm, ih2, PyResult.map]

/-- C6 is false as stated: a document whose only layout has name `"us"`
but shortDescription `"fr"` is still selected and mutated by the XML
apply step. -/
theorem c6_counterexample :
    isUsLayout (XNode.elem "layout" none
      [XNode.elem "configItem" none
        [XNode.elem "name" (some "us") [],
         XNode.elem "shortDescription" (some "fr") []],
       XNode.elem "variantList" none []]) = true ∧
    install_rules (XNode.elem "registry" none
      [XNode.elem "layout" none
        [XNode.elem "configItem" none
          [XNode.elem "name" (some "us") [],
           XNode.elem "shortDescription" (some "fr") []],
         XNode.elem "variantList" none []]]) =
      .ok (XNode.elem "registry" none
        [XNode.elem "layout" none
          [XNode.elem "configItem" none
            [XNode.elem "name" (some "us") [],
             XNode.elem "shortDescription" (some "fr") []],
           XNode.elem "variantList" none
             [XNode.comment " DPE-BEGIN ", dpeVariant,
              XNode.comment " DPE-END "]]]) ∧
    (XNode.elem "registry" none
      [XNode.elem "layout" none
        [XNode.elem "configItem" none
          [XNode.elem "name" (some "us") [],
           XNode.elem "shortDescription" (some "fr") []],
         XNode.elem "variantList" none
           [XNode.comment " DPE-BEGIN ", dpeVariant,
            XNode.comment " DPE-END "]]]) ≠
      (XNode.elem "registry" none
        [XNode.elem "layout" none
          [XNode.elem "configItem" none
            [XNode.elem "name" (some "us") [],
             XNode.elem "shortDescription" (some "fr") []],
           XNode.elem "variantList" none []]]) := by
  refine ⟨by decide, rfl, by simp⟩

/-- Witness for C6 (amended): a non-matching `"fr"` layout before and a
`"de"` layout after the `"us"` target. -/
theorem c6_witness :
    (∀ m ∈ [XNode.elem "layout" none
      [XNode.elem "configItem" none [XNode.elem "name" (some "fr") []]]],
      isUsLayout m = false) ∧
    installChildren
      ([XNode.elem "layout" none
        [XNode.elem "configItem" none [XNode.elem "name" (some "fr") []]]] ++
        XNode.elem "layout" none
          [XNode.elem "configItem" none [XNode.elem "name" (some "us") []],
           XNode.elem "variantList" none []] ::
        [XNode.elem "layout" none
          [XNode.elem "configItem" none [XNode.elem "name" (some "de") []]]]) =
      (modifyLayout (XNode.elem "layout" none
        [XNode.elem "configItem" none [XNode.elem "name" (some "us") []],
         XNode.elem "variantList" none []])).map
        (fun n2 => [XNode.elem "layout" none
          [XNode.elem "configItem" none [XNode.elem "name" (some "fr") []]]] ++
          n2 :: [XNode.elem "layout" none
            [XNode.elem "configItem" none [XNode.elem "name" (some "de") []]]]) :=
  ⟨by decide, c6_target_selected_by_name_only _ _ _ (by decide) (by decide)⟩

/-- C5 (amended): when the target layout is found, the XML apply
prepends — not appends — the three siblings at the head of the target
layout's variant-collection, in order start-marker comment, newly built
`variant` element, end-marker comment; every existing child of the
collection follows the triple unchanged, the layout's other children
are preserved (only its first `variantList` child is replaced by the
mutated collection), and sibling nodes after the layout are untouched. -/
theorem c5_triple_prepended (ltag : String) (ltx vtx : Option String)
    (cs vcs rest : List XNode)
    (hus : isUsLayout (XNode.elem ltag ltx cs) = true)
    (hvl : firstTag "variantList" cs = some (vtx, vcs)) :
    installChildren (XNode.elem ltag ltx cs :: rest) =
      .ok (XNode.elem ltag ltx
        (replaceFirstTag "variantList"
          (XNode.elem "variantList" vtx
            (XNode.comment " DPE-BEGIN " :: dpeVariant ::
              XNode.comment " DPE-END " :: vcs)) cs) :: rest) := by
  simp [installChildren, hus, modifyLayout, hvl, PyResult.map]

/-- C5 is false as stated: with one existing variant in the collection,
the inserted triple ends up before it (indices 0..2), not appended at
the end after it. -/
theorem c5_counterexample :
    install_rules (XNode.elem "registry" none
      [XNode.elem "layout" none
        [XNode.elem "configItem" none [XNode.elem "name" (some "us") []],
         XNode.elem "variantList" none
           [XNode.elem "variant" (some "intl") []]]]) =
      .ok (XNode.elem "registry" none
        [XNode.elem "layout" none
          [XNode.elem "configItem" none [XNode.elem "name" (some "us") []],
           XNode.elem "variantList" none
             [XNode.comment " DPE-BEGIN ", dpeVariant,
              XNode.comment " DPE-END ",
              XNode.elem "variant" (some "intl") []]]]) ∧
    install_rules (XNode.elem "registry" none
      [XNode.elem "layout" none
        [XNode.elem "configItem" none [XNode.elem "name" (some "us") []],
         XNode.elem "variantList" none
           [XNode.elem "variant" (some "intl") []]]]) ≠
      .ok (XNode.elem "registry" none
        [XNode.elem "layout" none
          [XNode.elem "configItem" none [XNode.elem "name" (some "us") []],
           XNode.elem "variantList" none
             [XNode.elem "variant" (some "intl") [],
              XNode.comment " DPE-BEGIN ", dpeVariant,
              XNode.comment " DPE-END "]]]) := by
  refine ⟨rfl, ?_⟩
  rw [show install_rules (XNode.elem "registry" none
      [XNode.elem "layout" none
        [XNode.elem "configItem" none [XNode.elem "name" (some "us") []],
         XNode.elem "variantList" none
           [XNode.elem "variant" (some "intl") []]]]) =
      .ok (XNode.elem "registry" none
        [XNode.elem "layout" none
          [XNode.elem "configItem" none [XNode.elem "name" (some "us") []],
           XNode.elem "variantList" none
             [XNode.comment " DPE-BEGIN ", dpeVariant,
              XNode.comment " DPE-END ",
              XNode.elem "variant" (some "intl") []]]]) from rfl]
  simp [dpeVariant]

/-- Witness for C5 (amended) at a concrete layout with an existing
variant and a trailing sibling layout. -/
theorem c5_witness :
    isUsLayout (XNode.elem "layout" none
      [XNode.elem "configItem" none [XNode.elem "name" (some "us") []],
       XNode.elem "variantList" (some "keep")
         [XNode.elem "variant" (some "old") []]]) = true ∧
    installChildren
      [XNode.elem "layout" none
        [XNode.elem "configItem" none [XNode.elem "name" (some "us") []],
         XNode.elem "variantList" (some "keep")
           [XNode.elem "variant" (some "old") []]],
       XNode.comment "after"] =
      .ok [XNode.elem "layout" none
        (replaceFirstTag "variantList"
          (XNode.elem "variantList" (some "keep")
            (XNode.comment " DPE-BEGIN " :: dpeVariant ::
              XNode.comment " DPE-END " ::
              [XNode.elem "variant" (some "old") []]))
          [XNode.elem "configItem" none [XNode.elem "name" (some "us") []],
           XNode.elem "variantList" (some "keep")
             [XNode.elem "variant" (some "old") []]]),
        XNode.comment "after"] :=
  ⟨by decide, c5_triple_prepended "layout" none (some "keep") _ _ _
    (by decide) rfl⟩

theorem installChildren_no_us :
    ∀ cs : List XNode, (∀ n ∈ cs, isUsLayout n = false) →
      installChildren cs = .ok cs := by
  intro cs
  induction cs with
  | nil => intro _; rfl
  | cons n cs' ih =>
    intro h
    have hn := h n (List.mem_cons_self n cs')
    have ih' := ih (fun m hm => h m (List.mem_cons_of_mem _ hm))
    simp [installChildren, hn, ih', PyResult.map]

/-- C4 (amended): when no layout child has `configItem/name` text
`"us"`, Install does not fail — no TargetLayoutNotFound error path
exists.  The XML step returns the tree unchanged, yet the run still
rewrites the rules file (`tree.write` runs unconditionally, so the file
is re-serialized), and a backup of the rules file was already taken at
the start of the run, before the target lookup. -/
theorem c4_no_target_still_writes (t : String) (tx : Option String)
    (cs : List XNode) (s L : List Char)
    (h : ∀ n ∈ cs, isUsLayout n = false) :
    install_rules (XNode.elem t tx cs) = .ok (XNode.elem t tx cs) ∧
    installTrace (some s) (XNode.elem t tx cs) L =
      [.backup .symbols (.text s),
       .backup .rules (.doc (XNode.elem t tx cs)),
       .write .symbols (.text (install_symbols s L)),
       .write .rules (.doc (XNode.elem t tx cs))] := by
  have h1 : install_rules (XNode.elem t tx cs) = .ok (XNode.elem t tx cs) := by
    simp [install_rules, installChildren_no_us cs h, PyResult.map]
  exact ⟨h1, by simp [installTrace, backup_file, h1]⟩

/-- C4 is false as stated: with a single `"de"` layout and no `"us"`
layout, Install raises nothing, backs the rules file up at the start,
and rewrites it (unchanged) at the end. -/
theorem c4_counterexample :
    install_rules (XNode.elem "registry" none
      [XNode.elem "layout" none
        [XNode.elem "configItem" none [XNode.elem "name" (some "de") []]]]) =
      .ok (XNode.elem "registry" none
        [XNode.elem "layout" none
          [XNode.elem "configItem" none [XNode.elem "name" (some "de") []]]]) ∧
    installTrace (some (chars "keycodes xyz\n"))
        (XNode.elem "registry" none
          [XNode.elem "layout" none
            [XNode.elem "configItem" none [XNode.elem "name" (some "de") []]]])
        (chars "xkb_symbols dpe data") =
      [.backup .symbols (.text (chars "keycodes xyz\n")),
       .backup .rules (.doc (XNode.elem "registry" none
         [XNode.elem "layout" none
           [XNode.elem "configItem" none [XNode.elem "name" (some "de") []]]])),
       .write .symbols (.text (install_symbols (chars "keycodes xyz\n")
         (chars "xkb_symbols dpe data"))),
       .write .rules (.doc (XNode.elem "registry" none
         [XNode.elem "layout" none
           [XNode.elem "configItem" none
             [XNode.elem "name" (some "de") []]]]))] :=
  ⟨rfl, rfl⟩

/-- Witness for C4 (amended) at a concrete document with one `"fr"`
layout. -/
theorem c4_witness :
    (∀ n ∈ [XNode.elem "layout" none
      [XNode.elem "configItem" none [XNode.elem "name" (some "fr") []]]],
      isUsLayout n = false) ∧
    install_rules (XNode.elem "registry" none
      [XNode.elem "layout" none
        [XNode.elem "configItem" none [XNode.elem "name" (some "fr") []]]]) =
      .ok (XNode.elem "registry" none
        [XNode.elem "layout" none
          [XNode.elem "configItem" none [XNode.elem "name" (some "fr") []]]]) :=
  ⟨by decide,
    (c4_no_target_still_writes "registry" none _ (chars "s\n") (chars "d")
      (by decide)).1⟩

/-- C8 (amended): backing up a nonexistent source does not fail — there
is no SourceNotFound error: `backup_file` prints a warning, creates no
backup, returns None, and the calling operation continues.  An install
run with a missing symbols file produces no symbols backup event yet
still proceeds to write (create) the symbols file. -/
theorem c8_missing_source_warns_and_continues (r : XNode) (L : List Char) :
    backup_file none .symbols = ([], none) ∧
    (installTrace none r L).filter (isBackupOf .symbols) = [] ∧
    Event.write .symbols (.text (install_symbols [] L)) ∈ installTrace none r L := by
  refine ⟨rfl, ?_, ?_⟩
  · cases hr : install_rules r with
    | ok r2 => simp [installTrace, backup_file, hr, isBackupOf]
    | exn e => simp [installTrace, backup_file, hr, isBackupOf]
  · cases hr : install_rules r with
    | ok r2 => simp [installTrace, backup_file, hr]
    | exn e => simp [installTrace, backup_file, hr]

/-- C8 is false as stated: for the (nonexistent) symbols source the
backup step returns None without failing, and the install run continues
— the rules file is backed up, and both files are written. -/
theorem c8_counterexample :
    backup_file none .symbols = ([], none) ∧
    installTrace none (XNode.elem "registry" none []) (chars "data") =
      [.backup .rules (.doc (XNode.elem "registry" none [])),
       .write .symbols (.text (install_symbols [] (chars "data"))),
       .write .rules (.doc (XNode.elem "registry" none []))] :=
  ⟨rfl, rfl⟩

theorem backupOk_std (s : List Char) (r : XNode) (x : List Char)
    (tail : List Event)
    (htail : tail = [] ∨ ∃ y : XNode, tail = [.write .rules (.doc y)]) :
    backupOk (fs0 s r)
      ([.backup .symbols (.text s), .backup .rules (.doc r),
        .write .symbols (.text x)] ++ tail) := by
  rcases htail with rfl | ⟨y, rfl⟩
  · intro i f c hw
    rcases i with _ | _ | _ | i
    · simp at hw
    · simp at hw
    · simp only [List.cons_append, List.nil_append, List.getElem?_cons_succ,
        List.getElem?_cons_zero] at hw
      injection hw with h1
      injection h1 with hf hc
      subst hf
      rfl
    · simp at hw
  · intro i f c hw
    rcases i with _ | _ | _ | _ | i
    · simp at hw
    · simp at hw
    · simp only [List.cons_append, List.nil_append, List.getElem?_cons_succ,
        List.getElem?_cons_zero] at hw
      injection hw with h1
      injection h1 with hf hc
      subst hf
      rfl
    · simp only [List.cons_append, List.nil_append, List.getElem?_cons_succ,
        List.getElem?_cons_zero] at hw
      injection hw with h1
      injection h1 with hf hc
      subst hf
      rfl
    · simp at hw

/-- C9: in every modelled install and uninstall run in which both
target files exist, every write to a file is preceded by exactly one
backup of that file, whose content equals the content that file still
has at the moment of the write; no existing target file is ever mutated
without having been backed up first. -/
theorem c9_backup_before_mutate (s : List Char) (r : XNode) (L : List Char) :
    backupOk (fs0 s r) (installTrace (some s) r L) ∧
    backupOk (fs0 s r) (uninstallTrace (some s) r) := by
  constructor
  · cases hr : install_rules r with
    | ok r2 =>
      have ht : installTrace (some s) r L =
          [.backup .symbols (.text s), .backup .rules (.doc r),
           .write .symbols (.text (install_symbols s L))] ++
            [.write .rules (.doc r2)] := by
        simp [installTrace, backup_file, hr]
      rw [ht]
      exact backupOk_std s r (install_symbols s L) _ (Or.inr ⟨r2, rfl⟩)
    | exn e =>
      have ht : installTrace (some s) r L =
          [.backup .symbols (.text s), .backup .rules (.doc r),
           .write .symbols (.text (install_symbols s L))] ++ [] := by
        simp [installTrace, backup_file, hr]
      rw [ht]
      exact backupOk_std s r (install_symbols s L) _ (Or.inl rfl)
  · cases hr : uninstall_rules r with
    | ok r2 =>
      have ht : uninstallTrace (some s) r =
          [.backup .symbols (.text s), .backup .rules (.doc r),
           .write .symbols (.text (uninstall_symbols s))] ++
            [.write .rules (.doc r2)] := by
        simp [uninstallTrace, backup_file, hr]
      rw [ht]
      exact backupOk_std s r (uninstall_symbols s) _ (Or.inr ⟨r2, rfl⟩)
    | exn e =>
      have ht : uninstallTrace (some s) r =
          [.backup .symbols (.text s), .backup .rules (.doc r),
           .write .symbols (.text (uninstall_symbols s))] ++ [] := by
        simp [uninstallTrace, backup_file, hr]
      rw [ht]
      exact backupOk_std s r (uninstall_symbols s) _ (Or.inl rfl)

/-- Witness for C9 at concrete file contents. -/
theorem c9_witness :
    backupOk (fs0 (chars "keycodes xyz\n") (XNode.elem "registry" none []))
      (installTrace (some (chars "keycodes xyz\n"))
        (XNode.elem "registry" none []) (chars "data")) ∧
    backupOk (fs0 (chars "keycodes xyz\n") (XNode.elem "registry" none []))
      (uninstallTrace (some (chars "keycodes xyz\n"))
        (XNode.elem "registry" none [])) :=
  c9_backup_before_mutate (chars "keycodes xyz\n")
    (XNode.elem "registry" none []) (chars "data")

/-- Witness for C2 (amended) at concrete content and payload. -/
theorem c2_witness :
    install_symbols (install_symbols (chars "keycodes k\n") (chars "dd"))
        (chars "dd") =
      install_symbols (chars "keycodes k\n") (chars "dd") ++
        chars "\n// DPE-BEGIN\n" ++ chars "dd" ++ chars "\n// DPE-END\n" ∧
    install_symbols (install_symbols (chars "keycodes k\n") (chars "dd"))
        (chars "dd") ≠
      install_symbols (chars "keycodes k\n") (chars "dd") :=
  c2_second_apply_reappends (chars "keycodes k\n") (chars "dd")

/-- Witness for C8 (amended) at a concrete rules document and payload. -/
theorem c8_witness :
    backup_file none .symbols = ([], none) ∧
    (installTrace none (XNode.elem "reg" none []) (chars "dd")).filter
      (isBackupOf .symbols) = [] ∧
    Event.write .symbols (.text (install_symbols [] (chars "dd"))) ∈
      installTrace none (XNode.elem "reg" none []) (chars "dd") :=
  c8_missing_source_warns_and_continues (XNode.elem "reg" none []) (chars "dd")
